import Mathlib

/-!
# Verification of the TESS pointing-checker utilities

Shallow embedding of `notebooks/utils.py` over the real numbers:
`get_critical_angles`, `check_range`'s alarm logic, `calculate_allowable_map`
and `build_grid`.  scipy's single-axis Euler rotors are embedded as the
standard active rotation maps on three-vectors; numpy floating arithmetic is
modelled by exact real arithmetic.
-/

open Real

noncomputable section

/-- A three-vector of reals, standing for a numpy length-3 float vector. -/
structure Vec3 where
  x : ℝ
  y : ℝ
  z : ℝ

/-- Degrees-to-radians conversion performed by scipy when `degrees=True`. -/
def rad (θ : ℝ) : ℝ := θ * Real.pi / 180

/-- `R.from_euler("x", θ, degrees=True).apply v`: active rotation about X. -/
def rotX (θ : ℝ) (v : Vec3) : Vec3 :=
  ⟨v.x,
   Real.cos (rad θ) * v.y - Real.sin (rad θ) * v.z,
   Real.sin (rad θ) * v.y + Real.cos (rad θ) * v.z⟩

/-- `R.from_euler("y", θ, degrees=True).apply v`: active rotation about Y. -/
def rotY (θ : ℝ) (v : Vec3) : Vec3 :=
  ⟨Real.cos (rad θ) * v.x + Real.sin (rad θ) * v.z,
   v.y,
   -Real.sin (rad θ) * v.x + Real.cos (rad θ) * v.z⟩

/-- `R.from_euler("z", θ, degrees=True).apply v`: active rotation about Z. -/
def rotZ (θ : ℝ) (v : Vec3) : Vec3 :=
  ⟨Real.cos (rad θ) * v.x - Real.sin (rad θ) * v.y,
   Real.sin (rad θ) * v.x + Real.cos (rad θ) * v.y,
   v.z⟩

/-- `np.sign(x).astype(int)` on a real (never-NaN) input. -/
def intSign (x : ℝ) : ℤ := if 0 < x then 1 else if x < 0 then -1 else 0

/-- The fixed antisolar Sun vector `vsun = [0, 0, -1]` of the source. -/
def vsun : Vec3 := ⟨0, 0, -1⟩

/-- The rotated Sun vector `vsunf = (rroll * rlat * rlong).apply(vsun)` with
`rlong = Rx(-dlong)`, `rlat = Ry(-decl)`, `rroll = Rz(-roll)` — the innermost
rotation `rlong` acting first. -/
def vsunf (dlong decl roll : ℝ) : Vec3 :=
  rotZ (-roll) (rotY (-decl) (rotX (-dlong) vsun))

/-- Result record of `get_critical_angles`. -/
structure SunAngles where
  sign_x : ℤ
  sun_angle : ℝ
  sun_angle_SC : ℝ

/-- `get_critical_angles(dlong, decl, roll)` from `notebooks/utils.py`:
returns `(np.sign(vsunf[:,0]).astype(int), 57.296*np.arcsin(vsunf[:,2]),
57.296*np.abs(np.arcsin(vsunf[:,1])))` for the scalar case. -/
def get_critical_angles (dlong decl roll : ℝ) : SunAngles :=
  ⟨intSign (vsunf dlong decl roll).x,
   57.296 * Real.arcsin (vsunf dlong decl roll).z,
   57.296 * |Real.arcsin (vsunf dlong decl roll).y|⟩

/-! ## Spec-side rotation matrices (for claim C1)

The specification describes the computation as the rotation-matrix product
`R_total = Rz(−roll) · Ry(−decl) · Rx(−dlong)` acting on the column vector
`(0, 0, −1)`.  These definitions follow the spec's words; the theorem for C1
compares them with the source-side `get_critical_angles`. -/

/-- Rotation matrix about the X axis by `θ` degrees (spec's `Rx`). -/
def RxMat (θ : ℝ) : Matrix (Fin 3) (Fin 3) ℝ :=
  Matrix.of ![![1, 0, 0],
              ![0, Real.cos (rad θ), -Real.sin (rad θ)],
              ![0, Real.sin (rad θ), Real.cos (rad θ)]]

/-- Rotation matrix about the Y axis by `θ` degrees (spec's `Ry`). -/
def RyMat (θ : ℝ) : Matrix (Fin 3) (Fin 3) ℝ :=
  Matrix.of ![![Real.cos (rad θ), 0, Real.sin (rad θ)],
              ![0, 1, 0],
              ![-Real.sin (rad θ), 0, Real.cos (rad θ)]]

/-- Rotation matrix about the Z axis by `θ` degrees (spec's `Rz`). -/
def RzMat (θ : ℝ) : Matrix (Fin 3) (Fin 3) ℝ :=
  Matrix.of ![![Real.cos (rad θ), -Real.sin (rad θ), 0],
              ![Real.sin (rad θ), Real.cos (rad θ), 0],
              ![0, 0, 1]]

/-- Spec-side Sun vector: `(Rz(−roll) · Ry(−decl) · Rx(−dlong)) · (0,0,−1)`,
the dlong matrix rightmost (applied first), the roll matrix leftmost. -/
def specSunVec (dlong decl roll : ℝ) : Fin 3 → ℝ :=
  (RzMat (-roll) * RyMat (-decl) * RxMat (-dlong)).mulVec ![0, 0, -1]

/-- C1: for every real dlong, decl, roll, `get_critical_angles` computes the
vector `v = Rz(−roll) ∘ Ry(−decl) ∘ Rx(−dlong)` applied to `(0,0,−1)` (dlong
innermost, roll outermost) and returns `sign(vx)` as an integer,
`57.296 * arcsin vz` and `57.296 * |arcsin vy|`. -/
theorem get_critical_angles_is_composed_rotation (dlong decl roll : ℝ) :
    get_critical_angles dlong decl roll =
      ⟨intSign (specSunVec dlong decl roll 0),
       57.296 * Real.arcsin (specSunVec dlong decl roll 2),
       57.296 * |Real.arcsin (specSunVec dlong decl roll 1)|⟩ := by
  have h0 : specSunVec dlong decl roll 0 = (vsunf dlong decl roll).x := by
    simp [specSunVec, RxMat, RyMat, RzMat, vsunf, rotX, rotY, rotZ, vsun,
      Matrix.mulVec, Matrix.dotProduct, Matrix.mul_apply, Fin.sum_univ_three]
    try ring
  have h1 : specSunVec dlong decl roll 1 = (vsunf dlong decl roll).y := by
    simp [specSunVec, RxMat, RyMat, RzMat, vsunf, rotX, rotY, rotZ, vsun,
      Matrix.mulVec, Matrix.dotProduct, Matrix.mul_apply, Fin.sum_univ_three]
    try ring
  have h2 : specSunVec dlong decl roll 2 = (vsunf dlong decl roll).z := by
    simp [specSunVec, RxMat, RyMat, RzMat, vsunf, rotX, rotY, rotZ, vsun,
      Matrix.mulVec, Matrix.dotProduct, Matrix.mul_apply, Fin.sum_univ_three]
    try ring
  rw [get_critical_angles, h0, h1, h2]

/-! ## `calculate_allowable_map` (per grid cell) -/

/-- The element-wise allowability condition of `calculate_allowable_map`:
`(sign_x > 0) & (sun_angle < -5) & (sun_angle_SC < ylim)`. -/
def allowableCond (s : SunAngles) (ylim : ℝ) : Prop :=
  0 < s.sign_x ∧ s.sun_angle < -5 ∧ s.sun_angle_SC < ylim

/-- `calculate_allowable_map(dlong, decl, roll, ylim, ndays)` for one grid
cell and a scalar roll: the code stacks the three time points
`[dlong - ndays, dlong, dlong + ndays]`, evaluates the element-wise condition
there, and collapses with `.all(axis=0)` over the time axis. -/
def calculate_allowable_map (dlong decl roll ylim ndays : ℝ) : Prop :=
  ∀ d ∈ [dlong - ndays, dlong, dlong + ndays],
    allowableCond (get_critical_angles d decl roll) ylim

/-- C2: `calculate_allowable_map` holds iff all three conditions
(`sign_x > 0`, `sun_angle < -5`, `sun_angle_SC < ylim`) hold at all three
points `dlong - ndays`, `dlong`, `dlong + ndays` — a conjunction of 9 boolean
terms with decl and roll held fixed. -/
theorem calculate_allowable_map_iff_nine_conditions
    (dlong decl roll ylim ndays : ℝ) :
    calculate_allowable_map dlong decl roll ylim ndays ↔
      (0 < (get_critical_angles (dlong - ndays) decl roll).sign_x ∧
        (get_critical_angles (dlong - ndays) decl roll).sun_angle < -5 ∧
        (get_critical_angles (dlong - ndays) decl roll).sun_angle_SC < ylim) ∧
      (0 < (get_critical_angles dlong decl roll).sign_x ∧
        (get_critical_angles dlong decl roll).sun_angle < -5 ∧
        (get_critical_angles dlong decl roll).sun_angle_SC < ylim) ∧
      (0 < (get_critical_angles (dlong + ndays) decl roll).sign_x ∧
        (get_critical_angles (dlong + ndays) decl roll).sun_angle < -5 ∧
        (get_critical_angles (dlong + ndays) decl roll).sun_angle_SC < ylim) := by
  constructor
  · intro h
    exact ⟨h _ (by simp), h _ (by simp), h _ (by simp)⟩
  · rintro ⟨ha, hb, hc⟩ d hd
    fin_cases hd
    · exact ha
    · exact hb
    · exact hc

/-! ## Invariants of `get_critical_angles` (claim C5) -/

/-- C5: `sun_angle_SC` is always nonnegative, and `sign_x` is exactly the
integer sign of the X component of the computed Sun vector: a trit in
`{-1, 0, 1}` that is `0` exactly when that component is zero. -/
theorem sun_angle_SC_nonneg_and_sign_x_is_sign (dlong decl roll : ℝ) :
    0 ≤ (get_critical_angles dlong decl roll).sun_angle_SC ∧
    (get_critical_angles dlong decl roll).sign_x =
      intSign (vsunf dlong decl roll).x ∧
    ((get_critical_angles dlong decl roll).sign_x = -1 ∨
      (get_critical_angles dlong decl roll).sign_x = 0 ∨
      (get_critical_angles dlong decl roll).sign_x = 1) ∧
    ((get_critical_angles dlong decl roll).sign_x = 0 ↔
      (vsunf dlong decl roll).x = 0) := by
  refine ⟨?_, rfl, ?_, ?_⟩
  · show 0 ≤ 57.296 * |Real.arcsin (vsunf dlong decl roll).y|
    positivity
  · unfold get_critical_angles intSign
    split_ifs <;> simp
  · unfold get_critical_angles intSign
    split_ifs with h1 h2 <;> simp <;> [linarith; linarith; linarith]

/-- C9: `get_critical_angles` is deterministic — two calls whose inputs are
equal produce equal outputs (the embedding is a pure function of its
arguments; there is no hidden state). -/
theorem get_critical_angles_deterministic
    (d1 d2 c1 c2 r1 r2 : ℝ) (hd : d1 = d2) (hc : c1 = c2) (hr : r1 = r2) :
    get_critical_angles d1 c1 r1 = get_critical_angles d2 c2 r2 := by
  rw [hd, hc, hr]

/-- Witness for C9 at the concrete input `(12, -7, 30)`. -/
theorem get_critical_angles_deterministic_witness :
    get_critical_angles 12 (-7) 30 = get_critical_angles 12 (-7) 30 :=
  get_critical_angles_deterministic 12 12 (-7) (-7) 30 30 rfl rfl rfl

/-- C7: at `dlong = 0, decl = 0, roll = 0` the computed Sun vector is exactly
`(0, 0, -1)`, hence `sign_x = 0` exactly, `sun_angle_SC = 0`, and
`sun_angle` is within `0.01` of `-90` degrees. -/
theorem evaluate_at_origin :
    vsunf 0 0 0 = ⟨0, 0, -1⟩ ∧
    (get_critical_angles 0 0 0).sign_x = 0 ∧
    (get_critical_angles 0 0 0).sun_angle_SC = 0 ∧
    |(get_critical_angles 0 0 0).sun_angle + 90| < 1 / 100 := by
  have hv : vsunf 0 0 0 = ⟨0, 0, -1⟩ := by
    simp [vsunf, rotX, rotY, rotZ, vsun, rad]
  refine ⟨hv, ?_, ?_, ?_⟩
  · simp [get_critical_angles, hv, intSign]
  · simp [get_critical_angles, hv, Real.arcsin_zero]
  · have hsa : (get_critical_angles 0 0 0).sun_angle = 57.296 * -(Real.pi / 2) := by
      simp [get_critical_angles, hv, Real.arcsin_neg_one]
    rw [hsa]
    have h1 := Real.pi_gt_d6
    have h2 := Real.pi_lt_d6
    rw [abs_lt]
    constructor <;> nlinarith

/-! ## Batched evaluation (claim C8)

With array inputs, scipy builds one rotor stack per axis, the composition
`rroll * rlat * rlong` pairs the stacks index by index, and `.apply(vsun)`
broadcasts the single vector over the stack; the three returned arrays are
the columns of the resulting `(N, 3)` array. -/

/-- The stack of rotated Sun vectors `vsunf` for equal-length array inputs:
the i-th rotor of each stack acts on `vsun`, index by index. -/
def vsunfArr (ds cs rs : List ℝ) : List Vec3 :=
  (ds.zip (cs.zip rs)).map fun p =>
    rotZ (-p.2.2) (rotY (-p.2.1) (rotX (-p.1) vsun))

/-- `get_critical_angles` on array inputs: the three returned arrays are the
sign column, the `57.296 * arcsin` of the z column, and the absolute
`57.296 * arcsin` of the y column of the rotated stack. -/
def get_critical_angles_arr (ds cs rs : List ℝ) :
    List ℤ × List ℝ × List ℝ :=
  ((vsunfArr ds cs rs).map fun v => intSign v.x,
   (vsunfArr ds cs rs).map fun v => 57.296 * Real.arcsin v.z,
   (vsunfArr ds cs rs).map fun v => 57.296 * |Real.arcsin v.y|)

/-- C8: on equal-length inputs the batched evaluator returns equal-length
outputs, and the i-th entry of each output depends only on `ds[i]`, `cs[i]`,
`rs[i]` — it equals the scalar `get_critical_angles` there (no
cross-product). -/
theorem get_critical_angles_arr_elementwise
    (ds cs rs : List ℝ) (hc : cs.length = ds.length)
    (hr : rs.length = ds.length) (i : ℕ) (hi : i < ds.length) :
    (get_critical_angles_arr ds cs rs).1.length = ds.length ∧
    (get_critical_angles_arr ds cs rs).2.1.length = ds.length ∧
    (get_critical_angles_arr ds cs rs).2.2.length = ds.length ∧
    (get_critical_angles_arr ds cs rs).1.getD i 0 =
      (get_critical_angles (ds.getD i 0) (cs.getD i 0) (rs.getD i 0)).sign_x ∧
    (get_critical_angles_arr ds cs rs).2.1.getD i 0 =
      (get_critical_angles (ds.getD i 0) (cs.getD i 0) (rs.getD i 0)).sun_angle ∧
    (get_critical_angles_arr ds cs rs).2.2.getD i 0 =
      (get_critical_angles (ds.getD i 0) (cs.getD i 0) (rs.getD i 0)).sun_angle_SC := by
  have hlen : (vsunfArr ds cs rs).length = ds.length := by
    simp [vsunfArr, hc, hr]
  refine ⟨by simp [get_critical_angles_arr, hlen],
          by simp [get_critical_angles_arr, hlen],
          by simp [get_critical_angles_arr, hlen], ?_, ?_, ?_⟩
  all_goals
    rw [List.getD_eq_getElem _ _ (by simp [get_critical_angles_arr, hlen]; omega),
        List.getD_eq_getElem _ _ hi,
        List.getD_eq_getElem _ _ (by omega),
        List.getD_eq_getElem _ _ (by omega)]
    simp [get_critical_angles_arr, vsunfArr, List.getElem_zip,
      get_critical_angles, vsunf]

/-- Witness for C8 at the concrete lists `ds = [0, 90]`, `cs = [10, 20]`,
`rs = [5, 15]` and index `i = 1`. -/
theorem get_critical_angles_arr_elementwise_witness :
    (get_critical_angles_arr [0, 90] [10, 20] [5, 15]).1.length = 2 ∧
    (get_critical_angles_arr [0, 90] [10, 20] [5, 15]).2.1.length = 2 ∧
    (get_critical_angles_arr [0, 90] [10, 20] [5, 15]).2.2.length = 2 ∧
    (get_critical_angles_arr [0, 90] [10, 20] [5, 15]).1.getD 1 0 =
      (get_critical_angles (([0, 90] : List ℝ).getD 1 0)
        (([10, 20] : List ℝ).getD 1 0) (([5, 15] : List ℝ).getD 1 0)).sign_x ∧
    (get_critical_angles_arr [0, 90] [10, 20] [5, 15]).2.1.getD 1 0 =
      (get_critical_angles (([0, 90] : List ℝ).getD 1 0)
        (([10, 20] : List ℝ).getD 1 0) (([5, 15] : List ℝ).getD 1 0)).sun_angle ∧
    (get_critical_angles_arr [0, 90] [10, 20] [5, 15]).2.2.getD 1 0 =
      (get_critical_angles (([0, 90] : List ℝ).getD 1 0)
        (([10, 20] : List ℝ).getD 1 0) (([5, 15] : List ℝ).getD 1 0)).sun_angle_SC :=
  get_critical_angles_arr_elementwise [0, 90] [10, 20] [5, 15]
    (by decide) (by decide) 1 (by decide)

/-! ## Roll-argument dispatch of `calculate_allowable_map` (claim C4)

The source inspects the dynamic type of `roll`: `float`/`int`/`np.integer`
goes down the scalar branch, `np.ndarray` down the array branch, and
everything else hits `raise ValueError(roll)`.  An ndarray of the wrong
length passes the type check and only fails later, when scipy refuses to
compose rotor stacks of different lengths. -/

/-- The dynamic type of the `roll` argument as the Python code sees it. -/
inductive RollArg
  | scalar (r : ℝ)
  | ndarray (rs : List ℝ)
  | pylist (rs : List ℝ)
  | other

/-- The two failures reachable from `calculate_allowable_map`: the explicit
`raise ValueError(roll)` carrying the roll argument, and the length-mismatch
error scipy raises while composing rotor stacks (no roll payload). -/
inductive MapError
  | valueError (roll : RollArg)
  | stackLengthMismatch

/-- `calculate_allowable_map` over a flattened `(dlong, decl)` grid with the
source's type dispatch on `roll`: scalar rolls broadcast over every cell;
ndarray rolls are stacked three times and must match the stacked dlong
length; any other roll raises `ValueError(roll)` before any computation. -/
def calculate_allowable_map_checked (dlong decl : List ℝ) (roll : RollArg)
    (ylim ndays : ℝ) : Except MapError (List Prop) :=
  match roll with
  | .scalar r =>
      .ok ((dlong.zip decl).map fun p =>
        calculate_allowable_map p.1 p.2 r ylim ndays)
  | .ndarray rs =>
      if 3 * rs.length = 3 * dlong.length then
        .ok (((dlong.zip decl).zip rs).map fun p =>
          calculate_allowable_map p.1.1 p.1.2 p.2 ylim ndays)
      else .error .stackLengthMismatch
  | r => .error (.valueError r)

/-- C4 counterexample: an ndarray roll of length 2 against a 1-cell grid is
neither a scalar nor shape-matching, yet the failure is the scipy stack
mismatch, not a `ValueError` carrying the roll value. -/
theorem roll_mismatch_is_not_valueError :
    calculate_allowable_map_checked [0] [0] (.ndarray [0, 0]) 15 14 =
      .error .stackLengthMismatch ∧
    ∀ a, MapError.stackLengthMismatch ≠ .valueError a := by
  refine ⟨by simp [calculate_allowable_map_checked], fun a h => ?_⟩
  cases h

/-- C4 amended: scalar rolls and shape-matching ndarray rolls are accepted;
a non-scalar, non-ndarray roll (list or otherwise) raises `ValueError`
carrying the offending roll with no partial result; a shape-mismatched
ndarray roll fails too, but inside the rotor-stack composition and without
the roll payload. -/
theorem roll_dispatch_behaviour (dlong decl : List ℝ) (ylim ndays : ℝ) :
    (∀ r : ℝ, ∃ l, calculate_allowable_map_checked dlong decl (.scalar r)
        ylim ndays = .ok l) ∧
    (∀ rs : List ℝ, rs.length = dlong.length →
      ∃ l, calculate_allowable_map_checked dlong decl (.ndarray rs)
        ylim ndays = .ok l) ∧
    (∀ rs : List ℝ, rs.length ≠ dlong.length →
      calculate_allowable_map_checked dlong decl (.ndarray rs) ylim ndays =
        .error .stackLengthMismatch) ∧
    (∀ rs : List ℝ,
      calculate_allowable_map_checked dlong decl (.pylist rs) ylim ndays =
        .error (.valueError (.pylist rs))) ∧
    calculate_allowable_map_checked dlong decl .other ylim ndays =
      .error (.valueError .other) := by
  refine ⟨fun r => ⟨_, rfl⟩, fun rs h => ?_, fun rs h => ?_,
    fun rs => rfl, rfl⟩
  · exact ⟨((dlong.zip decl).zip rs).map fun p =>
      calculate_allowable_map p.1.1 p.1.2 p.2 ylim ndays,
      by simp [calculate_allowable_map_checked, h]⟩
  · simp [calculate_allowable_map_checked, h]

/-- Witness for C4's amended behaviour: a matching one-element ndarray roll
on a one-cell grid is accepted. -/
theorem roll_dispatch_behaviour_witness :
    ∃ l, calculate_allowable_map_checked [0] [0] (.ndarray [3]) 15 14 =
      .ok l :=
  (roll_dispatch_behaviour [0] [0] 15 14).2.1 [3] (by decide)

/-! ## `check_range` alarm flags (claim C10) -/

/-- The per-day alarm flags set inside `check_range`'s loop, in order:
`"Sun on -X"` iff `ans[0] < 0`, `"Sun above sunshade"` iff `ans[1] > -5`,
`"Sun > Y angle limit"` iff `ans[2] > ylim` — all strict comparisons. -/
def checkRangeAlarms (s : SunAngles) (ylim : ℝ) : Prop × Prop × Prop :=
  (s.sign_x < 0, -5 < s.sun_angle, ylim < s.sun_angle_SC)

/-- On the `decl = 0, roll = 0` meridian the X component of the Sun vector
vanishes for every dlong, so `sign_x` is `0` there. -/
theorem sign_x_eq_zero_on_meridian (i : ℝ) :
    (get_critical_angles i 0 0).sign_x = 0 := by
  have hvx : (vsunf i 0 0).x = 0 := by
    simp [vsunf, rotX, rotY, rotZ, vsun, rad]
  simp [get_critical_angles, intSign, hvx]

/-- C10: `check_range`'s alarms are strict comparisons and are not the
negations of `calculate_allowable_map`'s conditions: at each boundary
(`sign_x = 0`, `sun_angle = -5`, or `sun_angle_SC = ylim`) the matching alarm
does not fire although the matching allowability condition fails;
concretely, at orientation `(0, 0, 0)` every day has `sign_x = 0` with no
`"Sun on -X"` alarm, while `calculate_allowable_map 0 0 0 15 14` is false. -/
theorem check_range_alarms_not_negation_of_allowable
    (s : SunAngles) (ylim i : ℝ) :
    (s.sign_x = 0 → ¬ (checkRangeAlarms s ylim).1 ∧ ¬ 0 < s.sign_x) ∧
    (s.sun_angle = -5 → ¬ (checkRangeAlarms s ylim).2.1 ∧ ¬ s.sun_angle < -5) ∧
    (s.sun_angle_SC = ylim →
      ¬ (checkRangeAlarms s ylim).2.2 ∧ ¬ s.sun_angle_SC < ylim) ∧
    ((get_critical_angles i 0 0).sign_x = 0 ∧
      ¬ (checkRangeAlarms (get_critical_angles i 0 0) ylim).1) ∧
    ¬ calculate_allowable_map 0 0 0 15 14 := by
  refine ⟨fun hx => ⟨?_, ?_⟩, fun hz => ⟨?_, ?_⟩, fun hy => ⟨?_, ?_⟩,
    ⟨sign_x_eq_zero_on_meridian i, ?_⟩, ?_⟩
  · simp [checkRangeAlarms, hx]
  · simp [hx]
  · simp [checkRangeAlarms, hz]
  · simp [hz]
  · simp [checkRangeAlarms, hy]
  · simp [hy]
  · simp [checkRangeAlarms, sign_x_eq_zero_on_meridian i]
  · intro hall
    have hmid := hall 0 (by simp)
    have h0 : (0 : ℤ) < (get_critical_angles 0 0 0).sign_x := hmid.1
    rw [sign_x_eq_zero_on_meridian 0] at h0
    exact lt_irrefl 0 h0

/-- Witness for C10: the boundary record `(0, -5, 15)` with `ylim = 15` and
day offset `i = 3`, each boundary hypothesis discharged by `rfl`. -/
theorem check_range_alarms_not_negation_of_allowable_witness :
    (¬ (checkRangeAlarms ⟨0, -5, 15⟩ 15).1 ∧
      ¬ (0 : ℤ) < (SunAngles.mk 0 (-5) 15).sign_x) ∧
    (¬ (checkRangeAlarms ⟨0, -5, 15⟩ 15).2.1 ∧
      ¬ (SunAngles.mk 0 (-5) 15).sun_angle < -5) ∧
    (¬ (checkRangeAlarms ⟨0, -5, 15⟩ 15).2.2 ∧
      ¬ (SunAngles.mk 0 (-5) 15).sun_angle_SC < 15) ∧
    ((get_critical_angles 3 0 0).sign_x = 0 ∧
      ¬ (checkRangeAlarms (get_critical_angles 3 0 0) 15).1) ∧
    ¬ calculate_allowable_map 0 0 0 15 14 :=
  ⟨(check_range_alarms_not_negation_of_allowable ⟨0, -5, 15⟩ 15 3).1 rfl,
    (check_range_alarms_not_negation_of_allowable ⟨0, -5, 15⟩ 15 3).2.1 rfl,
    (check_range_alarms_not_negation_of_allowable ⟨0, -5, 15⟩ 15 3).2.2.1 rfl,
    (check_range_alarms_not_negation_of_allowable ⟨0, -5, 15⟩ 15 3).2.2.2.1,
    (check_range_alarms_not_negation_of_allowable ⟨0, -5, 15⟩ 15 3).2.2.2.2⟩

/-! ## Unit norm of the rotated Sun vector

Supporting fact for the spec's robustness notes: in exact arithmetic each
single-axis rotation preserves the Euclidean norm, so the rotated Sun vector
is unit and both arcsin arguments lie in `[-1, 1]` — no clamping is needed
(and the source performs none). -/

/-- `rotX` preserves the squared norm. -/
theorem normSq_rotX (θ : ℝ) (v : Vec3) :
    (rotX θ v).x ^ 2 + (rotX θ v).y ^ 2 + (rotX θ v).z ^ 2 =
      v.x ^ 2 + v.y ^ 2 + v.z ^ 2 := by
  have h := Real.sin_sq_add_cos_sq (rad θ)
  simp only [rotX]
  linear_combination (v.y ^ 2 + v.z ^ 2) * h

/-- `rotY` preserves the squared norm. -/
theorem normSq_rotY (θ : ℝ) (v : Vec3) :
    (rotY θ v).x ^ 2 + (rotY θ v).y ^ 2 + (rotY θ v).z ^ 2 =
      v.x ^ 2 + v.y ^ 2 + v.z ^ 2 := by
  have h := Real.sin_sq_add_cos_sq (rad θ)
  simp only [rotY]
  linear_combination (v.x ^ 2 + v.z ^ 2) * h

/-- `rotZ` preserves the squared norm. -/
theorem normSq_rotZ (θ : ℝ) (v : Vec3) :
    (rotZ θ v).x ^ 2 + (rotZ θ v).y ^ 2 + (rotZ θ v).z ^ 2 =
      v.x ^ 2 + v.y ^ 2 + v.z ^ 2 := by
  have h := Real.sin_sq_add_cos_sq (rad θ)
  simp only [rotZ]
  linear_combination (v.x ^ 2 + v.y ^ 2) * h

/-- The rotated Sun vector is unit, and every component lies in `[-1, 1]`,
so the arcsin arguments of `get_critical_angles` are always in domain. -/
theorem vsunf_unit_norm (dlong decl roll : ℝ) :
    (vsunf dlong decl roll).x ^ 2 + (vsunf dlong decl roll).y ^ 2 +
      (vsunf dlong decl roll).z ^ 2 = 1 ∧
    |(vsunf dlong decl roll).x| ≤ 1 ∧ |(vsunf dlong decl roll).y| ≤ 1 ∧
    |(vsunf dlong decl roll).z| ≤ 1 := by
  have hn : (vsunf dlong decl roll).x ^ 2 + (vsunf dlong decl roll).y ^ 2 +
      (vsunf dlong decl roll).z ^ 2 = 1 := by
    rw [vsunf, normSq_rotZ, normSq_rotY, normSq_rotX]
    norm_num [vsun]
  refine ⟨hn, ?_, ?_, ?_⟩
  · rw [← sq_le_one_iff_abs_le_one]
    nlinarith [sq_nonneg (vsunf dlong decl roll).y,
      sq_nonneg (vsunf dlong decl roll).z]
  · rw [← sq_le_one_iff_abs_le_one]
    nlinarith [sq_nonneg (vsunf dlong decl roll).x,
      sq_nonneg (vsunf dlong decl roll).z]
  · rw [← sq_le_one_iff_abs_le_one]
    nlinarith [sq_nonneg (vsunf dlong decl roll).x,
      sq_nonneg (vsunf dlong decl roll).y]

/-! ## `build_grid` (claim C6)

`np.mgrid[-180:179, -90:90]` thinned by `[::2, ::2]` leaves dlong values
`-180, -178, …, 178` and decl values `-90, -88, …, 88`;
`np.arange(-180, 179, 5)` gives roll values `-180, -175, …, 175`.  For each
roll the rows `(dlong, decl, roll)` of the allowable cells are stacked and
the concatenation over all rolls is pickled. -/

/-- The swept dlong values `-180, -178, …, 178`. -/
def dlongVals : List ℝ := (List.range 180).map fun k : ℕ => -180 + 2 * (k : ℝ)

/-- The swept decl values `-90, -88, …, 88`. -/
def declVals : List ℝ := (List.range 90).map fun k : ℕ => -90 + 2 * (k : ℝ)

/-- The swept roll values `-180, -175, …, 175`. -/
def rollVals : List ℝ := (List.range 72).map fun k : ℕ => -180 + 5 * (k : ℝ)

/-- The flattened `(dlong, decl)` grid cells in row-major order. -/
def gridCells : List (ℝ × ℝ) :=
  dlongVals.flatMap fun d => declVals.map fun c => (d, c)

open Classical in
/-- `build_grid()`: for each swept roll, the rows `(dlong, decl, roll)` over
the allowable grid cells, concatenated over all rolls — the array written to
`allowable_pointings_grid.p`. -/
def build_grid : List (ℝ × ℝ × ℝ) :=
  rollVals.flatMap fun r =>
    (gridCells.filter fun p =>
        decide (calculate_allowable_map p.1 p.2 r 15 14)).map
      fun p => (p.1, p.2, r)

/-- The swept dlong values are exactly the even reals in `[-180, 178]`. -/
theorem mem_dlongVals (d : ℝ) :
    d ∈ dlongVals ↔ ∃ m : ℤ, d = 2 * m ∧ -180 ≤ d ∧ d ≤ 178 := by
  constructor
  · intro hd
    obtain ⟨k, hk, rfl⟩ := List.mem_map.mp hd
    have hkr : k < 180 := List.mem_range.mp hk
    have hk1 : (k : ℝ) ≤ 179 := by exact_mod_cast Nat.lt_succ_iff.mp (by omega)
    have hk0 : (0 : ℝ) ≤ (k : ℝ) := Nat.cast_nonneg k
    exact ⟨(k : ℤ) - 90, by push_cast; ring, by linarith, by linarith⟩
  · rintro ⟨m, rfl, h1, h2⟩
    have hm1 : (-90 : ℤ) ≤ m := by exact_mod_cast (by linarith : (-90 : ℝ) ≤ (m : ℝ))
    have hm2 : m ≤ 89 := by exact_mod_cast (by linarith : (m : ℝ) ≤ 89)
    apply List.mem_map.mpr
    refine ⟨(m + 90).toNat, List.mem_range.mpr (by omega), ?_⟩
    have hc : (((m + 90).toNat : ℕ) : ℝ) = (m : ℝ) + 90 := by
      exact_mod_cast Int.toNat_of_nonneg (by omega : (0 : ℤ) ≤ m + 90)
    rw [hc]; ring

/-- The swept decl values are exactly the even reals in `[-90, 88]`. -/
theorem mem_declVals (c : ℝ) :
    c ∈ declVals ↔ ∃ m : ℤ, c = 2 * m ∧ -90 ≤ c ∧ c ≤ 88 := by
  constructor
  · intro hc
    obtain ⟨k, hk, rfl⟩ := List.mem_map.mp hc
    have hkr : k < 90 := List.mem_range.mp hk
    have hk1 : (k : ℝ) ≤ 89 := by exact_mod_cast Nat.lt_succ_iff.mp (by omega)
    have hk0 : (0 : ℝ) ≤ (k : ℝ) := Nat.cast_nonneg k
    exact ⟨(k : ℤ) - 45, by push_cast; ring, by linarith, by linarith⟩
  · rintro ⟨m, rfl, h1, h2⟩
    have hm1 : (-45 : ℤ) ≤ m := by exact_mod_cast (by linarith : (-45 : ℝ) ≤ (m : ℝ))
    have hm2 : m ≤ 44 := by exact_mod_cast (by linarith : (m : ℝ) ≤ 44)
    apply List.mem_map.mpr
    refine ⟨(m + 45).toNat, List.mem_range.mpr (by omega), ?_⟩
    have hc : (((m + 45).toNat : ℕ) : ℝ) = (m : ℝ) + 45 := by
      exact_mod_cast Int.toNat_of_nonneg (by omega : (0 : ℤ) ≤ m + 45)
    rw [hc]; ring

/-- The swept roll values are exactly the multiples of 5 in `[-180, 178]`. -/
theorem mem_rollVals (r : ℝ) :
    r ∈ rollVals ↔ ∃ m : ℤ, r = 5 * m ∧ -180 ≤ r ∧ r ≤ 178 := by
  constructor
  · intro hr
    obtain ⟨k, hk, rfl⟩ := List.mem_map.mp hr
    have hkr : k < 72 := List.mem_range.mp hk
    have hk1 : (k : ℝ) ≤ 71 := by exact_mod_cast Nat.lt_succ_iff.mp (by omega)
    have hk0 : (0 : ℝ) ≤ (k : ℝ) := Nat.cast_nonneg k
    exact ⟨(k : ℤ) - 36, by push_cast; ring, by linarith, by linarith⟩
  · rintro ⟨m, rfl, h1, h2⟩
    have hm1 : (-36 : ℤ) ≤ m := by exact_mod_cast (by linarith : (-36 : ℝ) ≤ (m : ℝ))
    have hm2 : m < 36 := by exact_mod_cast (by linarith : (m : ℝ) < 36)
    apply List.mem_map.mpr
    refine ⟨(m + 36).toNat, List.mem_range.mpr (by omega), ?_⟩
    have hc : (((m + 36).toNat : ℕ) : ℝ) = (m : ℝ) + 36 := by
      exact_mod_cast Int.toNat_of_nonneg (by omega : (0 : ℤ) ≤ m + 36)
    rw [hc]; ring

/-- Membership in the flattened grid is cell-wise membership. -/
theorem mem_gridCells (d c : ℝ) :
    (d, c) ∈ gridCells ↔ d ∈ dlongVals ∧ c ∈ declVals := by
  simp only [gridCells, List.mem_flatMap, List.mem_map, Prod.mk.injEq]
  constructor
  · rintro ⟨a, ha, b, hb, rfl, rfl⟩
    exact ⟨ha, hb⟩
  · rintro ⟨ha, hb⟩
    exact ⟨d, ha, c, hb, rfl, rfl⟩

/-- The dlong sweep has no repeated value. -/
theorem dlongVals_nodup : dlongVals.Nodup := by
  have h : Function.Injective (fun k : ℕ => -180 + 2 * (k : ℝ)) := by
    intro a b hab
    simp only at hab
    have hr : (a : ℝ) = b := by linarith
    exact_mod_cast hr
  exact List.Nodup.map h (List.nodup_range 180)

/-- The decl sweep has no repeated value. -/
theorem declVals_nodup : declVals.Nodup := by
  have h : Function.Injective (fun k : ℕ => -90 + 2 * (k : ℝ)) := by
    intro a b hab
    simp only at hab
    have hr : (a : ℝ) = b := by linarith
    exact_mod_cast hr
  exact List.Nodup.map h (List.nodup_range 90)

/-- The roll sweep has no repeated value. -/
theorem rollVals_nodup : rollVals.Nodup := by
  have h : Function.Injective (fun k : ℕ => -180 + 5 * (k : ℝ)) := by
    intro a b hab
    simp only at hab
    have hr : (a : ℝ) = b := by linarith
    exact_mod_cast hr
  exact List.Nodup.map h (List.nodup_range 72)

/-- The flattened grid has no repeated cell. -/
theorem gridCells_nodup : gridCells.Nodup := by
  rw [gridCells, List.nodup_flatMap]
  refine ⟨fun d _ => List.Nodup.map (fun a b h => ?_) declVals_nodup, ?_⟩
  · exact congrArg Prod.snd h
  · refine List.Pairwise.imp ?_ dlongVals_nodup
    intro a b hab p hpa hpb
    simp only [Function.comp, List.mem_map] at hpa hpb
    obtain ⟨c1, _, rfl⟩ := hpa
    obtain ⟨c2, _, h2⟩ := hpb
    exact hab (congrArg Prod.fst h2).symm

/-- The pickled grid has no repeated row. -/
theorem build_grid_nodup : build_grid.Nodup := by
  classical
  rw [build_grid, List.nodup_flatMap]
  constructor
  · intro r _
    refine List.Nodup.map (fun a b h => ?_) (List.Nodup.filter _ gridCells_nodup)
    exact Prod.ext (congrArg (fun t => t.1) h) (congrArg (fun t => t.2.1) h)
  · refine List.Pairwise.imp ?_ rollVals_nodup
    intro a b hab p hpa hpb
    simp only [Function.comp, List.mem_map] at hpa hpb
    obtain ⟨c1, _, rfl⟩ := hpa
    obtain ⟨c2, _, h2⟩ := hpb
    exact hab (congrArg (fun t => t.2.2) h2).symm

/-- C6: a triple is a row of the `build_grid` array iff its dlong is an even
value in `[-180, 178]`, its decl an even value in `[-90, 88]`, its roll a
multiple of 5 in `[-180, 178]`, and the allowability map holds there; rows
are `(dlong, decl, roll)` triples (three columns in that order) and no row
repeats, so there is one row per allowable swept triple. -/
theorem build_grid_schema (d c r : ℝ) :
    ((d, c, r) ∈ build_grid ↔
      (∃ m : ℤ, d = 2 * m ∧ -180 ≤ d ∧ d ≤ 178) ∧
      (∃ m : ℤ, c = 2 * m ∧ -90 ≤ c ∧ c ≤ 88) ∧
      (∃ m : ℤ, r = 5 * m ∧ -180 ≤ r ∧ r ≤ 178) ∧
      calculate_allowable_map d c r 15 14) ∧
    build_grid.Nodup := by
  classical
  refine ⟨?_, build_grid_nodup⟩
  rw [← mem_dlongVals, ← mem_declVals, ← mem_rollVals]
  simp only [build_grid, List.mem_flatMap, List.mem_map, List.mem_filter,
    Prod.mk.injEq, decide_eq_true_eq]
  constructor
  · rintro ⟨r1, hr1, p, ⟨hp, hallow⟩, h1, h2, rfl⟩
    rw [← h1, ← h2]
    have hcell := (mem_gridCells p.1 p.2).mp (by simpa using hp)
    exact ⟨hcell.1, hcell.2, hr1, hallow⟩
  · rintro ⟨hd, hc, hr, hallow⟩
    exact ⟨r, hr, (d, c), ⟨(mem_gridCells d c).mpr ⟨hd, hc⟩, hallow⟩,
      rfl, rfl, rfl⟩

end
